import Mathlib

/-!
# The weapon component of Trigger-Finger-Tango (TP_WeaponComponent.cpp)

A shallow embedding of `UTP_WeaponComponent`: `Fire`, `BeginPlay` with its three
socket handlers, and `EndPlay`.  Calls into the engine are recorded in a trace;
a dereference of a null pointer ends the run with `Outcome.fault`.

The engine is not part of the repository.  What the component needs from it is
either taken as a parameter (`Engine`: the JSON deserialiser and the rendering of
numbers) or written down from the engine's documented behaviour
(`FString.Equals`, `FJsonValue.TryGetString`).
-/

namespace TriggerFinger

/-! ## Engine strings -/

/-- Lower-case form of an ASCII capital letter; every other character is kept. -/
def ToLower (c : Char) : Char :=
  if 65 ≤ c.toNat ∧ c.toNat ≤ 90 then Char.ofNat (c.toNat + 32) else c

/-- Engine string comparison `FString::operator==`.  The engine documents it as
case insensitive: it compares with `Stricmp`, which folds ASCII letters. -/
def FString.Equals (Lhs Rhs : String) : Bool :=
  Lhs.data.map ToLower == Rhs.data.map ToLower

/-! ## Engine JSON values -/

/-- A JSON value (`FJsonValue` and its subclasses), over the engine's number type. -/
inductive FJsonValue (Num : Type) where
  | null
  | string (Value : String)
  | number (Value : Num)
  | boolean (Value : Bool)
  | array (Value : List (FJsonValue Num))
  | object (Values : String → Option (FJsonValue Num))

/-- A JSON object (`FJsonObject`): the map `Values` from field names to values,
kept as its lookup. -/
structure FJsonObject (Num : Type) where
  Values : String → Option (FJsonValue Num)

/-- What the component takes from the engine without looking inside. -/
structure Engine (Num : Type) where
  /-- From `FJsonSerializer::Deserialize`: the object read, or `none` on failure. -/
  Deserialize : String → Option (FJsonObject Num)
  /-- From `FString::SanitizeFloat`: the text of a number. -/
  SanitizeFloat : Num → String

/-- Conversion `FJsonValue::TryGetString`: a string gives itself, a number its
text, a boolean `"true"` or `"false"`; null, arrays and objects give nothing. -/
def FJsonValue.TryGetString {Num : Type} (E : Engine Num) : FJsonValue Num → Option String
  | .string Value => some Value
  | .number Value => some (E.SanitizeFloat Value)
  | .boolean Value => some (if Value then "true" else "false")
  | .null => none
  | .array _ => none
  | .object _ => none

/-- Lookup `FJsonObject::TryGetField`. -/
def FJsonObject.TryGetField {Num : Type} (o : FJsonObject Num) (FieldName : String) :
    Option (FJsonValue Num) :=
  o.Values FieldName

/-- Lookup `FJsonObject::TryGetStringField`: the field exists and converts to a string. -/
def FJsonObject.TryGetStringField {Num : Type} (E : Engine Num) (o : FJsonObject Num)
    (FieldName : String) : Option String :=
  match o.TryGetField FieldName with
  | some Field => Field.TryGetString E
  | none => none

/-! ## The component and what it touches -/

/-- An asset the component points at (a projectile class, a sound, a montage). -/
abbrev Asset := Nat

/-- Colour of an on-screen message. -/
inductive FColor where
  | Green
  | Red
  deriving DecidableEq, Repr

/-- The three notifications of the socket that `BeginPlay` binds a lambda to. -/
inductive Handler where
  | OnConnected
  | OnConnectionError
  | OnMessage
  deriving DecidableEq, Repr

/-- A call the component makes that is visible outside it.  `Fire` marks the
entry into `UTP_WeaponComponent::Fire`; the others are engine calls. -/
inductive Event where
  | Fire
  | SpawnActor (ProjectileClass : Asset)
  | PlaySoundAtLocation (FireSound : Asset)
  | Montage_Play (FireAnimation : Asset)
  | AddOnScreenDebugMessage (Color : FColor) (Message : String)
  | LogError (Message : String)
  | LoadModule (Name : String)
  | CreateWebSocket (Url : String)
  | AddLambda (To : Handler)
  | Connect
  | Close
  | RemoveMappingContext
  deriving DecidableEq, Repr

/-- A player controller: whether `PlayerCameraManager` is set and whether its
local player has an enhanced-input subsystem. -/
structure APlayerController where
  PlayerCameraManager : Bool
  InputSubsystem : Bool
  deriving DecidableEq, Repr

/-- The controller of the character: a player controller or some other kind. -/
inductive AController where
  | Player (PlayerController : APlayerController)
  | Other
  deriving DecidableEq, Repr

/-- The engine's `Cast<APlayerController>`: null unless the controller is one. -/
def Cast : AController → Option APlayerController
  | .Player PlayerController => some PlayerController
  | .Other => none

/-- The arms mesh: whether `GetAnimInstance()` is non-null. -/
structure USkeletalMeshComponent where
  AnimInstance : Bool
  deriving DecidableEq, Repr

/-- The owning character, as far as the component looks into it. -/
structure AShooterSocketTestCharacter where
  Controller : Option AController
  Mesh1P : Option USkeletalMeshComponent
  deriving DecidableEq, Repr

/-- The socket made by `CreateWebSocket`. -/
structure IWebSocket where
  Url : String
  IsConnected : Bool
  deriving DecidableEq, Repr

/-- The weapon component.  Pointers are `Option`s (`none` is null) or, where only
null-ness is used, booleans.  `WebSocketsLoaded` is the module manager's answer to
`IsModuleLoaded("WebSockets")`; `Trace` lists the calls made so far, oldest first. -/
structure UTP_WeaponComponent where
  Character : Option AShooterSocketTestCharacter
  ProjectileClass : Option Asset
  FireSound : Option Asset
  FireAnimation : Option Asset
  World : Bool
  Owner : Bool
  Socket : Option IWebSocket
  WebSocketsLoaded : Bool
  Trace : List Event
  deriving DecidableEq, Repr

/-- Records one call at the end of the trace. -/
def UTP_WeaponComponent.Emit (c : UTP_WeaponComponent) (e : Event) : UTP_WeaponComponent :=
  { c with Trace := c.Trace ++ [e] }

/-- How a member function ends: it returns (`done`) or it dereferences a null
pointer (`fault`); either way with the component as it then stands. -/
inductive Outcome where
  | done (c : UTP_WeaponComponent)
  | fault (c : UTP_WeaponComponent)
  deriving DecidableEq, Repr

/-- The component an outcome ends with. -/
def Outcome.Component : Outcome → UTP_WeaponComponent
  | .done c => c
  | .fault c => c

/-- Whether the function returned. -/
def Outcome.Returned : Outcome → Bool
  | .done _ => true
  | .fault _ => false

/-- Sequencing: the rest runs only after a return. -/
def Outcome.andThen (o : Outcome) (rest : UTP_WeaponComponent → Outcome) : Outcome :=
  match o with
  | .done c => rest c
  | .fault c => .fault c

/-- The calls made between the component `c` and the outcome `o` that started from it. -/
def Issued (c : UTP_WeaponComponent) (o : Outcome) : List Event :=
  o.Component.Trace.drop c.Trace.length

/-! ## Member functions -/

/-- Member `UTP_WeaponComponent::Fire` (lines 21-64).  It faults where the source
goes through a pointer it has not tested: the result of the cast and
`PlayerCameraManager` (line 35), `GetOwner()` (line 37), `GetMesh1P()` (line 58). -/
def Fire (c0 : UTP_WeaponComponent) : Outcome :=
  let c := c0.Emit .Fire
  match c.Character with
  | none => .done c
  | some Character =>
    match Character.Controller with
    | none => .done c
    | some Controller =>
      -- Try and fire a projectile
      let Spawned : Outcome :=
        match c.ProjectileClass with
        | none => .done c
        | some ProjectileClass =>
          if c.World then
            match Cast Controller with
            | none => .fault c
            | some PlayerController =>
              if !PlayerController.PlayerCameraManager then .fault c
              else if !c.Owner then .fault c
              else .done (c.Emit (.SpawnActor ProjectileClass))
          else .done c
      Spawned.andThen fun c =>
      -- Try and play the sound if specified
      let c :=
        match c.FireSound with
        | none => c
        | some FireSound => c.Emit (.PlaySoundAtLocation FireSound)
      -- Try and play a firing animation if specified
      match c.FireAnimation with
      | none => .done c
      | some FireAnimation =>
        match Character.Mesh1P with
        | none => .fault c
        | some Mesh1P =>
          if Mesh1P.AnimInstance then .done (c.Emit (.Montage_Play FireAnimation))
          else .done c

/-- The lambda bound to `OnConnected` (lines 111-112). -/
def OnConnected (c : UTP_WeaponComponent) : Outcome :=
  .done (c.Emit (.AddOnScreenDebugMessage .Green "Successfully Connected"))

/-- The lambda bound to `OnConnectionError` (lines 114-115). -/
def OnConnectionError (Error : String) (c : UTP_WeaponComponent) : Outcome :=
  .done (c.Emit (.AddOnScreenDebugMessage .Red Error))

/-- The lambda bound to `OnMessage` (lines 117-145). -/
def OnMessage {Num : Type} (E : Engine Num) (MessageString : String)
    (c : UTP_WeaponComponent) : Outcome :=
  match E.Deserialize MessageString with
  | some JsonObject =>
    match JsonObject.TryGetStringField E "shoot" with
    | some Value =>
      if FString.Equals Value "true" then
        Fire (c.Emit (.AddOnScreenDebugMessage .Green Value))
      else .done c
    | none => .done c
  | none => .done (c.Emit (.LogError "Failed to convert string to JSON"))

/-- Member `UTP_WeaponComponent::BeginPlay` (lines 100-148); `Super::BeginPlay()`
leaves no call in the trace.  The socket it makes is not yet connected: `Connect`
only starts the connection. -/
def BeginPlay (c : UTP_WeaponComponent) : UTP_WeaponComponent :=
  let c :=
    if !c.WebSocketsLoaded then
      { c.Emit (.LoadModule "WebSockets") with WebSocketsLoaded := true }
    else c
  let c :=
    { c.Emit (.CreateWebSocket "ws://localhost:3001") with
      Socket := some { Url := "ws://localhost:3001", IsConnected := false } }
  let c := c.Emit (.AddLambda .OnConnected)
  let c := c.Emit (.AddLambda .OnConnectionError)
  let c := c.Emit (.AddLambda .OnMessage)
  c.Emit .Connect

/-- Member `UTP_WeaponComponent::EndPlay` (lines 150-169).  It faults at
`Socket->IsConnected()` (line 165) when no socket was made. -/
def EndPlay (c : UTP_WeaponComponent) : Outcome :=
  match c.Character with
  | none => .done c
  | some Character =>
    let c :=
      match Character.Controller.bind Cast with
      | some PlayerController =>
        if PlayerController.InputSubsystem then c.Emit .RemoveMappingContext else c
      | none => c
    match c.Socket with
    | none => .fault c
    | some Socket =>
      if Socket.IsConnected then .done (c.Emit .Close) else .done c

/-- Messages arriving one after another: each goes to the `OnMessage` lambda, on
the component the previous one left; nothing runs after a fault. -/
def Deliver {Num : Type} (E : Engine Num) : List String → UTP_WeaponComponent → Outcome
  | [], c => .done c
  | MessageString :: Later, c => (OnMessage E MessageString c).andThen (Deliver E Later)

/-- Messages handed to the `OnMessage` lambda one after another: the lambda is
called once for each message of the list, on the component its previous call ended
with. -/
def Handle {Num : Type} (E : Engine Num) : List String → UTP_WeaponComponent →
    UTP_WeaponComponent
  | [], c => c
  | MessageString :: Later, c => Handle E Later (OnMessage E MessageString c).Component

/-- Whether the lambda takes a message as a trigger: it parses, its `shoot` field
converts to a string, and that string compares equal to `"true"`. -/
def Qualifies {Num : Type} (E : Engine Num) (MessageString : String) : Bool :=
  match E.Deserialize MessageString with
  | some JsonObject =>
    match JsonObject.TryGetStringField E "shoot" with
    | some Value => FString.Equals Value "true"
    | none => false
  | none => false

/-! ## A reference deserialiser

Used to give `Engine.Deserialize` a concrete value in closed examples.  It reads
an object whose members are strings without escapes, naturals, `true`, `false`
or `null`, with blanks allowed between tokens. -/

/-- Drops leading blanks. -/
def SkipBlanks : List Char → List Char
  | c :: cs => if c = ' ' then SkipBlanks cs else c :: cs
  | [] => []

/-- Reads up to the closing quote; `Read` holds what was read so far. -/
def ReadString (Read : List Char) : List Char → Option (String × List Char)
  | [] => none
  | c :: cs =>
    if c = '"' then some (String.mk Read, cs)
    else if c = '\\' then none
    else ReadString (Read ++ [c]) cs

/-- Reads decimal digits into the number `Read` stands for so far. -/
def ReadDigits (Read : Nat) : List Char → Nat × List Char
  | [] => (Read, [])
  | c :: cs =>
    if 48 ≤ c.toNat ∧ c.toNat ≤ 57 then ReadDigits (10 * Read + (c.toNat - 48)) cs
    else (Read, c :: cs)

/-- Reads one member value. -/
def ReadValue : List Char → Option (FJsonValue Nat × List Char)
  | 't' :: 'r' :: 'u' :: 'e' :: cs => some (.boolean true, cs)
  | 'f' :: 'a' :: 'l' :: 's' :: 'e' :: cs => some (.boolean false, cs)
  | 'n' :: 'u' :: 'l' :: 'l' :: cs => some (.null, cs)
  | c :: cs =>
    if c = '"' then (ReadString [] cs).map fun r => (.string r.1, r.2)
    else if 48 ≤ c.toNat ∧ c.toNat ≤ 57 then
      some (.number (ReadDigits 0 (c :: cs)).1, (ReadDigits 0 (c :: cs)).2)
    else none
  | [] => none

/-- Reads the members after the opening brace, at most `Fuel` of them. -/
def ReadMembers : Nat → List Char → Option (List (String × FJsonValue Nat))
  | 0, _ => none
  | Fuel + 1, cs =>
    match SkipBlanks cs with
    | '"' :: cs1 =>
      match ReadString [] cs1 with
      | none => none
      | some (Key, cs2) =>
        match SkipBlanks cs2 with
        | ':' :: cs3 =>
          match ReadValue (SkipBlanks cs3) with
          | none => none
          | some (Value, cs4) =>
            match SkipBlanks cs4 with
            | ',' :: cs5 => (ReadMembers Fuel cs5).map fun Rest => (Key, Value) :: Rest
            | '}' :: cs5 => if SkipBlanks cs5 = [] then some [(Key, Value)] else none
            | _ => none
        | _ => none
    | _ => none

/-- The object with the given members; a later member replaces an earlier one of
the same name, names being engine strings. -/
def ObjectOf (Members : List (String × FJsonValue Nat)) : FJsonObject Nat :=
  { Values := fun FieldName =>
      (Members.reverse.find? fun m => FString.Equals m.1 FieldName).map fun m => m.2 }

/-- The reference deserialiser. -/
def ReferenceDeserialize (MessageString : String) : Option (FJsonObject Nat) :=
  match SkipBlanks MessageString.data with
  | '{' :: cs =>
    if SkipBlanks cs = ['}'] then some (ObjectOf [])
    else (ReadMembers MessageString.length cs).map ObjectOf
  | _ => none

/-- The engine used in closed examples. -/
def ReferenceEngine : Engine Nat where
  Deserialize := ReferenceDeserialize
  SanitizeFloat := Nat.repr

/-- A component nobody has picked up: no character, assets set, socket connected. -/
def Unattached : UTP_WeaponComponent where
  Character := none
  ProjectileClass := some 1
  FireSound := some 2
  FireAnimation := some 3
  World := true
  Owner := true
  Socket := some { Url := "ws://localhost:3001", IsConnected := true }
  WebSocketsLoaded := true
  Trace := []

/-- A component held by a player's character, everything in place. -/
def Held : UTP_WeaponComponent :=
  { Unattached with
    Character := some
      { Controller := some (.Player { PlayerCameraManager := true, InputSubsystem := true }),
        Mesh1P := some { AnimInstance := true } } }

/-- A component held by a character that something other than a player controls. -/
def HeldByOther : UTP_WeaponComponent :=
  { Unattached with
    Character := some { Controller := some .Other, Mesh1P := some { AnimInstance := true } } }

/-- The held component before any socket was made. -/
def HeldNoSocket : UTP_WeaponComponent :=
  { Held with Socket := none }

/-- The unattached component before any socket was made. -/
def UnattachedNoSocket : UTP_WeaponComponent :=
  { Unattached with Socket := none }

/-! ## Supporting lemmas -/

/-- What `Issued` sees when the trace has only grown. -/
theorem Issued_of_trace (c c1 : UTP_WeaponComponent) (o : Outcome) (evs : List Event)
    (ho : o.Component = c1) (ht : c1.Trace = c.Trace ++ evs) : Issued c o = evs := by
  simp [Issued, ho, ht]

/-- Entering `Fire` is recorded once per call, whatever happens inside. -/
theorem Fire_issued_count (c : UTP_WeaponComponent) :
    (Issued c (Fire c)).count Event.Fire = 1 := by
  obtain ⟨Character, ProjectileClass, FireSound, FireAnimation, World, Owner, Socket, Loaded,
    Trace⟩ := c
  rcases Character with _ | ⟨Controller, Mesh1P⟩
  · simp [Issued, Fire, UTP_WeaponComponent.Emit, Outcome.Component]
  · rcases Controller with _ | Controller
    · simp [Issued, Fire, UTP_WeaponComponent.Emit, Outcome.Component]
    · rcases ProjectileClass with _ | ProjectileClass <;>
      rcases FireSound with _ | FireSound <;>
      rcases FireAnimation with _ | FireAnimation <;>
      rcases Mesh1P with _ | ⟨_ | _⟩ <;>
      rcases Controller with ⟨_ | _, _⟩ | _ <;>
      cases World <;> cases Owner <;>
      simp [Issued, Fire, UTP_WeaponComponent.Emit, Outcome.Component, Outcome.andThen, Cast]

/-- Inside `Fire` only the trace changes, and it only grows. -/
theorem Fire_component (c : UTP_WeaponComponent) :
    ∃ evs, (Fire c).Component = { c with Trace := c.Trace ++ evs } := by
  obtain ⟨Character, ProjectileClass, FireSound, FireAnimation, World, Owner, Socket, Loaded,
    Trace⟩ := c
  rcases Character with _ | ⟨Controller, Mesh1P⟩
  · exact ⟨[Event.Fire], by simp [Fire, UTP_WeaponComponent.Emit, Outcome.Component]⟩
  · rcases Controller with _ | Controller
    · exact ⟨[Event.Fire], by simp [Fire, UTP_WeaponComponent.Emit, Outcome.Component]⟩
    · rcases ProjectileClass with _ | ProjectileClass <;>
      rcases FireSound with _ | FireSound <;>
      rcases FireAnimation with _ | FireAnimation <;>
      rcases Mesh1P with _ | ⟨_ | _⟩ <;>
      rcases Controller with ⟨_ | _, _⟩ | _ <;>
      cases World <;> cases Owner <;>
      simp [Fire, UTP_WeaponComponent.Emit, Outcome.Component, Outcome.andThen, Cast]

/-- Whether `Fire` returns does not depend on the trace. -/
theorem Fire_returned_trace (c : UTP_WeaponComponent) (t : List Event) :
    (Fire { c with Trace := t }).Returned = (Fire c).Returned := by
  obtain ⟨Character, ProjectileClass, FireSound, FireAnimation, World, Owner, Socket, Loaded,
    Trace⟩ := c
  rcases Character with _ | ⟨Controller, Mesh1P⟩
  · simp [Fire, UTP_WeaponComponent.Emit, Outcome.Returned]
  · rcases Controller with _ | Controller
    · simp [Fire, UTP_WeaponComponent.Emit, Outcome.Returned]
    · rcases ProjectileClass with _ | ProjectileClass <;>
      rcases FireSound with _ | FireSound <;>
      rcases FireAnimation with _ | FireAnimation <;>
      rcases Mesh1P with _ | ⟨_ | _⟩ <;>
      rcases Controller with ⟨_ | _, _⟩ | _ <;>
      cases World <;> cases Owner <;>
      simp [Fire, UTP_WeaponComponent.Emit, Outcome.Returned, Outcome.andThen, Cast]

/-- A message that qualifies is shown on screen and passed on to `Fire`. -/
theorem OnMessage_of_qualifies {Num : Type} (E : Engine Num) (MessageString : String)
    (c : UTP_WeaponComponent) (h : Qualifies E MessageString = true) :
    ∃ Value, OnMessage E MessageString c
      = Fire (c.Emit (.AddOnScreenDebugMessage .Green Value)) := by
  cases hd : E.Deserialize MessageString with
  | none => simp [Qualifies, hd] at h
  | some JsonObject =>
    cases hv : JsonObject.TryGetStringField E "shoot" with
    | none => simp [Qualifies, hd, hv] at h
    | some Value =>
      simp only [Qualifies, hd, hv] at h
      exact ⟨Value, by simp [OnMessage, hd, hv, h]⟩

/-- A message that does not qualify never reaches `Fire`: the lambda returns, with
at most the parse error logged. -/
theorem OnMessage_of_not_qualifies {Num : Type} (E : Engine Num) (MessageString : String)
    (c : UTP_WeaponComponent) (h : Qualifies E MessageString = false) :
    OnMessage E MessageString c = .done c ∨
    OnMessage E MessageString c
      = .done (c.Emit (.LogError "Failed to convert string to JSON")) := by
  cases hd : E.Deserialize MessageString with
  | none => right; simp [OnMessage, hd]
  | some JsonObject =>
    cases hv : JsonObject.TryGetStringField E "shoot" with
    | none => left; simp [OnMessage, hd, hv]
    | some Value =>
      simp only [Qualifies, hd, hv] at h
      left
      simp [OnMessage, hd, hv, h]

/-- The number of entries into `Fire` that one message causes. -/
theorem OnMessage_issued_count {Num : Type} (E : Engine Num) (MessageString : String)
    (c : UTP_WeaponComponent) :
    (Issued c (OnMessage E MessageString c)).count Event.Fire
      = if Qualifies E MessageString then 1 else 0 := by
  cases hq : Qualifies E MessageString with
  | true =>
    obtain ⟨Value, hV⟩ := OnMessage_of_qualifies E MessageString c hq
    obtain ⟨evs, hevs⟩ := Fire_component (c.Emit (.AddOnScreenDebugMessage .Green Value))
    have hcount : evs.count Event.Fire = 1 := by
      have h1 := Fire_issued_count (c.Emit (.AddOnScreenDebugMessage .Green Value))
      rwa [Issued_of_trace _ _ _ evs hevs rfl] at h1
    rw [hV, Issued_of_trace c _ _ (Event.AddOnScreenDebugMessage .Green Value :: evs) hevs
      (by simp [UTP_WeaponComponent.Emit])]
    simp [hcount]
  | false =>
    rcases OnMessage_of_not_qualifies E MessageString c hq with h | h <;>
      simp [h, Issued, Outcome.Component, UTP_WeaponComponent.Emit]

/-- An outcome that returned is `done` of its component. -/
theorem Outcome.eq_done_of_returned (o : Outcome) (h : o.Returned = true) :
    o = .done o.Component := by
  cases o <;> simp_all [Outcome.Returned, Outcome.Component]

/-- An outcome that did not return is `fault` of its component. -/
theorem Outcome.eq_fault_of_not_returned (o : Outcome) (h : o.Returned = false) :
    o = .fault o.Component := by
  cases o <;> simp_all [Outcome.Returned, Outcome.Component]

/-- One message, exactly: the lambda only extends the trace, enters `Fire` once if
the message qualifies and not at all otherwise, and returns unless `Fire` was
entered and faulted. -/
theorem OnMessage_spec {Num : Type} (E : Engine Num) (MessageString : String)
    (c : UTP_WeaponComponent) :
    ∃ evs, (OnMessage E MessageString c).Component = { c with Trace := c.Trace ++ evs } ∧
      evs.count Event.Fire = (if Qualifies E MessageString then 1 else 0) ∧
      (OnMessage E MessageString c).Returned
        = (!Qualifies E MessageString || (Fire c).Returned) := by
  cases hq : Qualifies E MessageString with
  | true =>
    obtain ⟨Value, hV⟩ := OnMessage_of_qualifies E MessageString c hq
    obtain ⟨evs, hevs⟩ := Fire_component (c.Emit (.AddOnScreenDebugMessage .Green Value))
    have hcount := OnMessage_issued_count E MessageString c
    rw [hV, Issued_of_trace c _ _ (Event.AddOnScreenDebugMessage .Green Value :: evs) hevs
      (by simp [UTP_WeaponComponent.Emit]), hq] at hcount
    refine ⟨Event.AddOnScreenDebugMessage .Green Value :: evs, ?_, by simpa using hcount, ?_⟩
    · rw [hV, hevs]; simp [UTP_WeaponComponent.Emit]
    · rw [hV]
      simpa [UTP_WeaponComponent.Emit] using Fire_returned_trace c
        (c.Trace ++ [Event.AddOnScreenDebugMessage .Green Value])
  | false =>
    rcases OnMessage_of_not_qualifies E MessageString c hq with h | h
    · exact ⟨[], by simp [h, Outcome.Component, Outcome.Returned]⟩
    · exact ⟨[Event.LogError "Failed to convert string to JSON"],
        by simp [h, Outcome.Component, Outcome.Returned, UTP_WeaponComponent.Emit]⟩

/-- A run of messages where `Fire` does not fault: every message is handled and
`Fire` is entered once per qualifying message. -/
theorem Deliver_of_fire_returns {Num : Type} (E : Engine Num) (Messages : List String) :
    ∀ c : UTP_WeaponComponent, (Fire c).Returned = true →
      ∃ evs, Deliver E Messages c = .done { c with Trace := c.Trace ++ evs } ∧
        evs.count Event.Fire = (Messages.filter (Qualifies E)).length := by
  induction Messages with
  | nil => intro c _; exact ⟨[], by simp [Deliver]⟩
  | cons MessageString Later ih =>
    intro c hc
    obtain ⟨e1, h1, hn1, hr1⟩ := OnMessage_spec E MessageString c
    have hdone := Outcome.eq_done_of_returned _ (by rw [hr1, hc]; simp)
    rw [h1] at hdone
    obtain ⟨e2, h2, hn2⟩ := ih { c with Trace := c.Trace ++ e1 }
      (by rw [Fire_returned_trace c (c.Trace ++ e1)]; exact hc)
    refine ⟨e1 ++ e2, ?_, ?_⟩
    · simp [Deliver, hdone, Outcome.andThen, h2]
    · cases hq : Qualifies E MessageString <;>
        simp [hq, List.filter_cons, hn2, List.count_append] at hn1 ⊢ <;> omega

/-- A run of messages where `Fire` faults: the first qualifying message enters
`Fire` and ends the run, so `Fire` is entered once if any message qualifies. -/
theorem Deliver_of_fire_faults {Num : Type} (E : Engine Num) (Messages : List String) :
    ∀ c : UTP_WeaponComponent, (Fire c).Returned = false →
      ∃ evs, (Deliver E Messages c).Component = { c with Trace := c.Trace ++ evs } ∧
        evs.count Event.Fire = min 1 (Messages.filter (Qualifies E)).length := by
  induction Messages with
  | nil => intro c _; exact ⟨[], by simp [Deliver, Outcome.Component]⟩
  | cons MessageString Later ih =>
    intro c hc
    obtain ⟨e1, h1, hn1, hr1⟩ := OnMessage_spec E MessageString c
    cases hq : Qualifies E MessageString with
    | true =>
      have hfault := Outcome.eq_fault_of_not_returned _ (by rw [hr1, hc, hq]; simp)
      rw [h1] at hfault
      rw [hq] at hn1
      refine ⟨e1, by simp [Deliver, hfault, Outcome.andThen, Outcome.Component], ?_⟩
      simp [List.filter_cons, hq, hn1]
    | false =>
      have hdone := Outcome.eq_done_of_returned _ (by rw [hr1, hq]; simp)
      rw [h1] at hdone
      rw [hq] at hn1
      obtain ⟨e2, h2, hn2⟩ := ih { c with Trace := c.Trace ++ e1 }
        (by rw [Fire_returned_trace c (c.Trace ++ e1)]; exact hc)
      refine ⟨e1 ++ e2, by simp [Deliver, hdone, Outcome.andThen, h2], ?_⟩
      simp only [Bool.false_eq_true, if_false] at hn1
      simp [List.filter_cons, hq, hn2, List.count_append, hn1]

/-! ## The claims -/

/-- Claim C1: for every component state, when the message lambda is given the
text `{"shoot": "true"}`, read by the engine as the object whose `shoot` field is
the string `"true"`, it shows the value on screen, calls `Fire`, and `Fire` is
entered exactly once. -/
theorem C1_trigger_text_fires_once {Num : Type} (E : Engine Num) (c : UTP_WeaponComponent)
    (JsonObject : FJsonObject Num)
    (hparse : E.Deserialize "\x7b\"shoot\": \"true\"\x7d" = some JsonObject)
    (hfield : JsonObject.TryGetField "shoot" = some (.string "true")) :
    OnMessage E "\x7b\"shoot\": \"true\"\x7d" c
        = Fire (c.Emit (.AddOnScreenDebugMessage .Green "true")) ∧
      (Issued c (OnMessage E "\x7b\"shoot\": \"true\"\x7d" c)).count Event.Fire = 1 := by
  have hq : Qualifies E "\x7b\"shoot\": \"true\"\x7d" = true := by
    simp [Qualifies, hparse, FJsonObject.TryGetStringField, hfield, FJsonValue.TryGetString]
    decide
  refine ⟨?_, ?_⟩
  · have h : FString.Equals "true" "true" = true := by decide
    simp [OnMessage, hparse, FJsonObject.TryGetStringField, hfield, FJsonValue.TryGetString, h]
  · rw [OnMessage_issued_count, hq]; rfl

/-- Witness for C1: the reference engine and a component held by a player. -/
theorem C1_trigger_text_fires_once_witness :
    OnMessage ReferenceEngine "\x7b\"shoot\": \"true\"\x7d" Held
        = Fire (Held.Emit (.AddOnScreenDebugMessage .Green "true")) ∧
      (Issued Held (OnMessage ReferenceEngine "\x7b\"shoot\": \"true\"\x7d" Held)).count
        Event.Fire = 1 :=
  C1_trigger_text_fires_once ReferenceEngine Held (ObjectOf [("shoot", .string "true")])
    rfl rfl

/-- Counterexample to C2 as stated: the texts `{"shoot": "TRUE"}` and
`{"shoot": true}` parse, their `shoot` values are not the string `"true"`, and for
each the lambda enters `Fire` once. -/
theorem C2_counterexample :
    (ReferenceEngine.Deserialize "\x7b\"shoot\": \"TRUE\"\x7d"
        = some (ObjectOf [("shoot", .string "TRUE")]) ∧
      (ObjectOf [("shoot", .string "TRUE")]).TryGetField "shoot" = some (.string "TRUE") ∧
      FJsonValue.string "TRUE" ≠ (FJsonValue.string "true" : FJsonValue Nat) ∧
      (Issued Held (OnMessage ReferenceEngine "\x7b\"shoot\": \"TRUE\"\x7d" Held)).count
        Event.Fire = 1) ∧
    (ReferenceEngine.Deserialize "\x7b\"shoot\": true\x7d"
        = some (ObjectOf [("shoot", .boolean true)]) ∧
      (ObjectOf [("shoot", .boolean true)]).TryGetField "shoot" = some (.boolean true) ∧
      FJsonValue.boolean true ≠ (FJsonValue.string "true" : FJsonValue Nat) ∧
      (Issued Held (OnMessage ReferenceEngine "\x7b\"shoot\": true\x7d" Held)).count
        Event.Fire = 1) := by
  refine ⟨⟨rfl, rfl, ?_, by decide⟩, ⟨rfl, rfl, ?_, by decide⟩⟩
  · intro h
    injection h with h
    exact absurd h (by decide)
  · intro h
    cases h

/-- Claim C2, amended: for every message that parses and whose `shoot` field is
present with a value whose string form (`TryGetString`) is missing or does not
compare equal to `"true"` under the engine's case-insensitive comparison, the
lambda does nothing at all; in particular `Fire` is entered zero times. -/
theorem C2_other_values_do_not_fire {Num : Type} (E : Engine Num) (c : UTP_WeaponComponent)
    (MessageString : String) (JsonObject : FJsonObject Num) (Field : FJsonValue Num)
    (hparse : E.Deserialize MessageString = some JsonObject)
    (hfield : JsonObject.TryGetField "shoot" = some Field)
    (hvalue : ∀ Value, Field.TryGetString E = some Value → FString.Equals Value "true" = false) :
    OnMessage E MessageString c = .done c ∧
      (Issued c (OnMessage E MessageString c)).count Event.Fire = 0 := by
  have h : OnMessage E MessageString c = .done c := by
    cases hs : Field.TryGetString E with
    | none => simp [OnMessage, hparse, FJsonObject.TryGetStringField, hfield, hs]
    | some Value =>
      simp [OnMessage, hparse, FJsonObject.TryGetStringField, hfield, hs, hvalue Value hs]
  exact ⟨h, by simp [h, Issued, Outcome.Component]⟩

/-- Witness for C2, amended: the text `{"shoot": "false"}`. -/
theorem C2_other_values_do_not_fire_witness :
    OnMessage ReferenceEngine "\x7b\"shoot\": \"false\"\x7d" Held = .done Held ∧
      (Issued Held (OnMessage ReferenceEngine "\x7b\"shoot\": \"false\"\x7d" Held)).count
        Event.Fire = 0 :=
  C2_other_values_do_not_fire ReferenceEngine Held "\x7b\"shoot\": \"false\"\x7d"
    (ObjectOf [("shoot", .string "false")]) (.string "false") rfl rfl
    (by
      intro Value hValue
      simp only [FJsonValue.TryGetString, Option.some.injEq] at hValue
      subst hValue
      decide)

/-- Claim C3: for every text the engine fails to deserialise, the lambda logs the
one error "Failed to convert string to JSON", does nothing else, and returns;
`Fire` is entered zero times. -/
theorem C3_parse_failure_logs_and_drops {Num : Type} (E : Engine Num)
    (c : UTP_WeaponComponent) (MessageString : String)
    (hparse : E.Deserialize MessageString = none) :
    OnMessage E MessageString c
        = .done (c.Emit (.LogError "Failed to convert string to JSON")) ∧
      Issued c (OnMessage E MessageString c)
        = [Event.LogError "Failed to convert string to JSON"] ∧
      (Issued c (OnMessage E MessageString c)).count Event.Fire = 0 := by
  have h : OnMessage E MessageString c
      = .done (c.Emit (.LogError "Failed to convert string to JSON")) := by
    simp [OnMessage, hparse]
  refine ⟨h, ?_, ?_⟩ <;> simp [h, Issued, Outcome.Component, UTP_WeaponComponent.Emit]

/-- Witness for C3: the text `shoot` is not an object. -/
theorem C3_parse_failure_logs_and_drops_witness :
    OnMessage ReferenceEngine "shoot" Held
        = .done (Held.Emit (.LogError "Failed to convert string to JSON")) ∧
      Issued Held (OnMessage ReferenceEngine "shoot" Held)
        = [Event.LogError "Failed to convert string to JSON"] ∧
      (Issued Held (OnMessage ReferenceEngine "shoot" Held)).count Event.Fire = 0 :=
  C3_parse_failure_logs_and_drops ReferenceEngine Held "shoot" rfl

/-- Claim C4: for every message that parses as an object in which the lookup of
`shoot` finds nothing, the lambda does nothing: no `Fire`, nothing shown, nothing
logged; the component is left as it was. -/
theorem C4_no_shoot_field_no_action {Num : Type} (E : Engine Num) (c : UTP_WeaponComponent)
    (MessageString : String) (JsonObject : FJsonObject Num)
    (hparse : E.Deserialize MessageString = some JsonObject)
    (hfield : JsonObject.TryGetField "shoot" = none) :
    OnMessage E MessageString c = .done c ∧ Issued c (OnMessage E MessageString c) = [] := by
  have h : OnMessage E MessageString c = .done c := by
    simp [OnMessage, hparse, FJsonObject.TryGetStringField, hfield]
  exact ⟨h, by simp [h, Issued, Outcome.Component]⟩

/-- Witness for C4: the text `{"aim": "true"}`. -/
theorem C4_no_shoot_field_no_action_witness :
    OnMessage ReferenceEngine "\x7b\"aim\": \"true\"\x7d" Held = .done Held ∧
      Issued Held (OnMessage ReferenceEngine "\x7b\"aim\": \"true\"\x7d" Held) = [] :=
  C4_no_shoot_field_no_action ReferenceEngine Held "\x7b\"aim\": \"true\"\x7d"
    (ObjectOf [("aim", .string "true")]) rfl rfl

/-- Claim C5: over any sequence of messages handed to the lambda, from any
component state, the lambda changes nothing but the trace and `Fire` is entered as
many times as there are qualifying messages in the sequence; so `N` copies of a
trigger message enter `Fire` exactly `N` times. -/
theorem C5_one_fire_per_qualifying_message {Num : Type} (E : Engine Num) :
    (∀ (Messages : List String) (c : UTP_WeaponComponent),
      ∃ evs, Handle E Messages c = { c with Trace := c.Trace ++ evs } ∧
        evs.count Event.Fire = (Messages.filter (Qualifies E)).length) ∧
    (∀ (N : Nat) (MessageString : String) (c : UTP_WeaponComponent),
      Qualifies E MessageString = true →
      (Issued c (.done (Handle E (List.replicate N MessageString) c))).count Event.Fire
        = N) := by
  have general : ∀ (Messages : List String) (c : UTP_WeaponComponent),
      ∃ evs, Handle E Messages c = { c with Trace := c.Trace ++ evs } ∧
        evs.count Event.Fire = (Messages.filter (Qualifies E)).length := by
    intro Messages
    induction Messages with
    | nil => intro c; exact ⟨[], by simp [Handle]⟩
    | cons MessageString Later ih =>
      intro c
      obtain ⟨e1, h1, hn1, _⟩ := OnMessage_spec E MessageString c
      obtain ⟨e2, h2, hn2⟩ := ih { c with Trace := c.Trace ++ e1 }
      refine ⟨e1 ++ e2, by simp [Handle, h1, h2], ?_⟩
      cases hq : Qualifies E MessageString <;>
        simp [hq, List.filter_cons, hn2, List.count_append] at hn1 ⊢ <;> omega
  refine ⟨general, ?_⟩
  intro N MessageString c hq
  obtain ⟨evs, h, hn⟩ := general (List.replicate N MessageString) c
  have hall : (List.replicate N MessageString).filter (Qualifies E)
      = List.replicate N MessageString := by
    apply List.filter_eq_self.mpr
    intro m hm
    rw [List.eq_of_mem_replicate hm]
    exact hq
  rw [hall, List.length_replicate] at hn
  rw [Issued_of_trace c _ _ evs rfl (by rw [h]; rfl), hn]

/-- Witness for C5: three trigger messages handed to the lambda of the held
component. -/
theorem C5_one_fire_per_qualifying_message_witness :
    Qualifies ReferenceEngine "\x7b\"shoot\": \"true\"\x7d" = true ∧
      (Issued Held (.done (Handle ReferenceEngine
        (List.replicate 3 "\x7b\"shoot\": \"true\"\x7d") Held))).count Event.Fire = 3 :=
  ⟨by decide, (C5_one_fire_per_qualifying_message ReferenceEngine).2 3
    "\x7b\"shoot\": \"true\"\x7d" Held (by decide)⟩

/-- Claim C6 at the failing input: the socket is connected but no character is
attached; `EndPlay` returns at once and `Close` is not called. -/
theorem C6_unattached_socket_left_open :
    Unattached.Character = none ∧
      Unattached.Socket = some { Url := "ws://localhost:3001", IsConnected := true } ∧
      EndPlay Unattached = .done Unattached ∧
      Event.Close ∉ Issued Unattached (EndPlay Unattached) := by
  decide

/-- With a character attached and the socket connected, `EndPlay` does close it. -/
theorem EndPlay_closes_when_attached (c : UTP_WeaponComponent)
    (Character : AShooterSocketTestCharacter) (Socket : IWebSocket)
    (hc : c.Character = some Character) (hs : c.Socket = some Socket)
    (hconn : Socket.IsConnected = true) :
    (EndPlay c).Returned = true ∧ (Issued c (EndPlay c)).count Event.Close = 1 := by
  obtain ⟨_, ProjectileClass, FireSound, FireAnimation, World, Owner, _, Loaded, Trace⟩ := c
  simp only at hc hs
  subst hc hs
  obtain ⟨Controller, Mesh1P⟩ := Character
  rcases Controller with _ | ⟨⟨_, _ | _⟩⟩ | _ <;>
    simp [EndPlay, Cast, hconn, Issued, Outcome.Component, Outcome.Returned,
      UTP_WeaponComponent.Emit]

/-- Counterexample to C7 as stated: no socket was made and a character is
attached; `EndPlay` reaches `Socket->IsConnected()` and does not return. -/
theorem C7_counterexample :
    HeldNoSocket.Socket = none ∧ (EndPlay HeldNoSocket).Returned = false := by
  decide

/-- Claim C7, amended: in every component state in which no socket was made,
`EndPlay` calls no `Close`; and when `Character` is null as well it completes without
failure, leaving the component as it was. -/
theorem C7_no_socket_no_close (c : UTP_WeaponComponent) (hs : c.Socket = none) :
    Event.Close ∉ Issued c (EndPlay c) ∧
      (c.Character = none → EndPlay c = .done c ∧ Issued c (EndPlay c) = []) := by
  obtain ⟨Character, ProjectileClass, FireSound, FireAnimation, World, Owner, _, Loaded,
    Trace⟩ := c
  simp only at hs
  subst hs
  rcases Character with _ | ⟨Controller, Mesh1P⟩
  · simp [EndPlay, Issued, Outcome.Component]
  · rcases Controller with _ | ⟨⟨_, _ | _⟩⟩ | _ <;>
      simp [EndPlay, Cast, Issued, Outcome.Component, UTP_WeaponComponent.Emit]

/-- Witness for C7, amended: the unattached component with no socket. -/
theorem C7_no_socket_no_close_witness :
    Event.Close ∉ Issued UnattachedNoSocket (EndPlay UnattachedNoSocket) ∧
      (UnattachedNoSocket.Character = none →
        EndPlay UnattachedNoSocket = .done UnattachedNoSocket ∧
          Issued UnattachedNoSocket (EndPlay UnattachedNoSocket) = []) :=
  C7_no_socket_no_close UnattachedNoSocket rfl

/-- Claim C8: from every component state, `BeginPlay` followed at once by
`EndPlay` returns without a fault and no `Close` is called in the whole run; and
in every state, `EndPlay` calls `Close` only if the socket exists and reports
connected. -/
theorem C8_close_only_when_connected :
    (∀ c : UTP_WeaponComponent,
      (EndPlay (BeginPlay c)).Returned = true ∧
        Event.Close ∉ Issued c (EndPlay (BeginPlay c))) ∧
    (∀ c : UTP_WeaponComponent, Event.Close ∈ Issued c (EndPlay c) →
      ∃ Socket, c.Socket = some Socket ∧ Socket.IsConnected = true) := by
  constructor
  · intro c
    obtain ⟨Character, ProjectileClass, FireSound, FireAnimation, World, Owner, Socket, Loaded,
      Trace⟩ := c
    rcases Character with _ | ⟨Controller, Mesh1P⟩
    · cases Loaded <;>
        simp [EndPlay, BeginPlay, Issued, Outcome.Component, Outcome.Returned,
          UTP_WeaponComponent.Emit]
    · rcases Controller with _ | ⟨⟨_, _ | _⟩⟩ | _ <;> cases Loaded <;>
        simp [EndPlay, BeginPlay, Cast, Issued, Outcome.Component, Outcome.Returned,
          UTP_WeaponComponent.Emit]
  · intro c
    obtain ⟨Character, ProjectileClass, FireSound, FireAnimation, World, Owner, Socket, Loaded,
      Trace⟩ := c
    rcases Character with _ | ⟨Controller, Mesh1P⟩
    · simp [EndPlay, Issued, Outcome.Component]
    · rcases Socket with _ | ⟨Url, _ | _⟩ <;>
      rcases Controller with _ | ⟨⟨_, _ | _⟩⟩ | _ <;>
        simp [EndPlay, Cast, Issued, Outcome.Component, UTP_WeaponComponent.Emit]

/-- Witness for C8: the held component, whose socket is connected, is closed. -/
theorem C8_close_only_when_connected_witness :
    Event.Close ∈ Issued Held (EndPlay Held) ∧
      ∃ Socket, Held.Socket = some Socket ∧ Socket.IsConnected = true :=
  ⟨by decide, C8_close_only_when_connected.2 Held (by decide)⟩

/-- Claim C9: in every component state in which `Character` is null or the
character has no controller, `Fire` returns at once without a fault and makes no
engine call: no projectile, no sound, no montage, whatever `ProjectileClass`,
`FireSound` and `FireAnimation` are. -/
theorem C9_fire_returns_early (c : UTP_WeaponComponent)
    (h : c.Character = none ∨ ∃ Character, c.Character = some Character ∧
      Character.Controller = none) :
    Fire c = .done (c.Emit .Fire) ∧ Issued c (Fire c) = [Event.Fire] := by
  have hf : Fire c = .done (c.Emit .Fire) := by
    rcases h with h | ⟨Character, h, hctrl⟩
    · simp [Fire, UTP_WeaponComponent.Emit, h]
    · simp [Fire, UTP_WeaponComponent.Emit, h, hctrl]
  exact ⟨hf, by simp [hf, Issued, Outcome.Component, UTP_WeaponComponent.Emit]⟩

/-- Witness for C9: the unattached component, with all three assets set. -/
theorem C9_fire_returns_early_witness :
    Fire Unattached = .done (Unattached.Emit .Fire) ∧
      Issued Unattached (Fire Unattached) = [Event.Fire] :=
  C9_fire_returns_early Unattached (Or.inl rfl)

/-- Claim C10: two messages that both parse and whose lookups of `shoot` give the
same result (both nothing, or the same value) lead the lambda to the same outcome
from the same component: the same calls, `Fire` included, in the same order,
whatever other fields the messages carry. -/
theorem C10_only_shoot_is_read {Num : Type} (E : Engine Num) (c : UTP_WeaponComponent)
    (First Second : String) (FirstObject SecondObject : FJsonObject Num)
    (hfirst : E.Deserialize First = some FirstObject)
    (hsecond : E.Deserialize Second = some SecondObject)
    (hshoot : FirstObject.TryGetField "shoot" = SecondObject.TryGetField "shoot") :
    OnMessage E First c = OnMessage E Second c := by
  simp [OnMessage, hfirst, hsecond, FJsonObject.TryGetStringField, hshoot]

/-- Witness for C10: two trigger messages that differ in their other fields. -/
theorem C10_only_shoot_is_read_witness :
    OnMessage ReferenceEngine "\x7b\"shoot\": \"true\", \"aim\": \"head\"\x7d" Held
      = OnMessage ReferenceEngine "\x7b\"mode\": null, \"shoot\": \"true\"\x7d" Held :=
  C10_only_shoot_is_read ReferenceEngine Held
    "\x7b\"shoot\": \"true\", \"aim\": \"head\"\x7d"
    "\x7b\"mode\": null, \"shoot\": \"true\"\x7d"
    (ObjectOf [("shoot", .string "true"), ("aim", .string "head")])
    (ObjectOf [("mode", .null), ("shoot", .string "true")])
    rfl rfl rfl

end TriggerFinger
